import Mathlib

/-!
Shallow embedding of the interview-reviewer backend
(`src/backend/main.py` and `src/backend/main_assembly_ai.py`).

External services — the local Whisper model, the Groq chat API and the
AssemblyAI HTTP API — are modelled as oracle functions passed to the
embedded endpoints; the endpoint and helper bodies themselves are
translated from the source.  Audio payloads are byte lists
(`List Nat`), strings are Lean `String`, and a Python call that may
raise is an `Except` value whose `.error` constructor stands for the
raised exception.
-/

/-- FastAPI `HTTPException`, as raised throughout the backend: an HTTP
status code plus a detail message. -/
structure HTTPException where
  status_code : Nat
  detail : String
deriving DecidableEq, Repr

/-- Python's `str.startswith`, used by every endpoint to test the
declared content type: a prefix test on the characters. -/
def pyStartswith (s p : String) : Bool := p.data.isPrefixOf s.data

/-- Value of one field of the JSON object parsed from the Groq model's
reply: either a JSON string or a JSON array of strings — the shapes the
normalization code is written for. -/
inductive RawVal where
  | str (s : String)
  | list (xs : List String)
deriving DecidableEq, Repr

/-- Parsed JSON analysis object.  Each of the three fields may be absent
(`none`), mirroring `dict.get` on the parsed Python dict. -/
structure RawFields where
  strengths : Option RawVal
  weaknesses : Option RawVal
  recommendations : Option RawVal
deriving DecidableEq, Repr

/-- `list_to_str` from `src/backend/main.py` (lines 68-70), Python
`"\n".join([str(item) for item in lst])`.  For a list of strings,
`str(item)` is the item itself; iterating a Python string yields its
characters, so a string argument has its characters joined with
newlines. -/
def list_to_str : RawVal → String
  | .list xs => String.intercalate "\n" xs
  | .str s => String.intercalate "\n" (s.data.map (fun c => String.mk [c]))

/-- Inner `normalize` of `analyze_transcript_with_groq` in
`src/backend/main_assembly_ai.py` (lines 124-127): a list value becomes
`"\n- " + "\n- ".join(value)`, any other value is `str(value)` — the
identity on strings.  (Named `normalize` in the source; Mathlib already
takes that name.) -/
def normalize_field : RawVal → String
  | .list xs => "\n- " ++ String.intercalate "\n- " xs
  | .str s => s

/-- Canonical three-field analysis record: the `AnalysisResponse`
pydantic model of `main_assembly_ai.py`, and the three normalized fields
of the `main.py` response. -/
structure AnalysisRecord where
  strengths : String
  weaknesses : String
  recommendations : String
deriving DecidableEq, Repr

/-- Field normalization done inline by `analyze_interview` in
`src/backend/main.py` (lines 121-123):
`list_to_str(analysis_data.get(key, []))` for each of the three keys. -/
def mainNormalize (raw : RawFields) : AnalysisRecord :=
  { strengths := list_to_str (raw.strengths.getD (.list []))
    weaknesses := list_to_str (raw.weaknesses.getD (.list []))
    recommendations := list_to_str (raw.recommendations.getD (.list [])) }

/-- Field normalization done by `analyze_transcript_with_groq` in
`src/backend/main_assembly_ai.py` (lines 129-133):
`normalize(parsed.get(key, ""))` for each of the three keys. -/
def groqNormalize (raw : RawFields) : AnalysisRecord :=
  { strengths := normalize_field (raw.strengths.getD (.str ""))
    weaknesses := normalize_field (raw.weaknesses.getD (.str ""))
    recommendations := normalize_field (raw.recommendations.getD (.str "")) }

/-- Multipart upload as the endpoints see it: declared media type plus
raw bytes (`await file.read()`). -/
structure UploadFile where
  content_type : String
  content : List Nat
deriving DecidableEq, Repr

/-- Response body of `POST /analyze-interview/` in `src/backend/main.py`
(lines 126-131). -/
structure AnalysisResponse where
  transcript : String
  strengths : String
  weaknesses : String
  recommendations : String
deriving DecidableEq, Repr

/-- Observable side effects of one `main.py` request: whether the staged
temporary audio file is currently on disk, and whether the analysis
provider (`analyze_with_groq`) has been invoked. -/
structure RunTrace where
  tempFileOnDisk : Bool
  analyzeCalled : Bool
deriving DecidableEq, Repr

/-- Body of the `try` block of `analyze_interview` in
`src/backend/main.py` (lines 107-131).  The temporary file is created
first, so `tempFileOnDisk` is `true` in every branch of the returned
trace.  `transcribe` abstracts `model.transcribe(path)["text"]` and
`analyze` abstracts `analyze_with_groq`; an `.error` result stands for
the Python call raising. -/
def analyze_interview_try (transcribe : List Nat → Except String String)
    (analyze : String → Except String RawFields) (file : UploadFile) :
    Except String AnalysisResponse × RunTrace :=
  match transcribe file.content with
  | .error e => (.error e, ⟨true, false⟩)
  | .ok transcript =>
    match analyze transcript with
    | .error e => (.error e, ⟨true, true⟩)
    | .ok raw =>
      (.ok ⟨transcript, (mainNormalize raw).strengths, (mainNormalize raw).weaknesses,
        (mainNormalize raw).recommendations⟩, ⟨true, true⟩)

/-- The `finally` clause of `analyze_interview` in `src/backend/main.py`
(lines 136-138): remove the temporary file when it exists. -/
def finallyCleanup (t : RunTrace) : RunTrace :=
  if t.tempFileOnDisk then { t with tempFileOnDisk := false } else t

/-- `analyze_interview` from `src/backend/main.py` (lines 102-138), the
local-Whisper variant.  The content-type check precedes the `try` block;
any exception escaping the body is re-raised as a 500
`"Processing failed: ..."`; the `finally` cleanup runs on the success
and the failure path alike. -/
def analyze_interview_local (transcribe : List Nat → Except String String)
    (analyze : String → Except String RawFields) (file : UploadFile) :
    Except HTTPException AnalysisResponse × RunTrace :=
  if ¬ pyStartswith file.content_type "audio/" then
    (.error ⟨400, "Invalid file type. Please upload audio."⟩, ⟨false, false⟩)
  else
    match analyze_interview_try transcribe analyze file with
    | (.ok resp, t) => (.ok resp, finallyCleanup t)
    | (.error e, t) => (.error ⟨500, "Processing failed: " ++ e⟩, finallyCleanup t)

/-- `analyze_transcript_with_groq` from `src/backend/main_assembly_ai.py`
(lines 102-136): `chat` abstracts the Groq call plus `json.loads`; any
failure there is caught and re-raised as a 500 `"AI analysis failed."`;
on success the parsed fields are normalized key by key. -/
def analyze_transcript_with_groq (chat : String → Except String RawFields)
    (transcript : String) : Except HTTPException AnalysisRecord :=
  match chat transcript with
  | .error _ => .error ⟨500, "AI analysis failed."⟩
  | .ok parsed => .ok (groqNormalize parsed)

/-- Observable side effects of one `main_assembly_ai.py` request:
whether the transcription pipeline and the analysis helper were
invoked. -/
structure AssemblyTrace where
  transcribeCalled : Bool
  analyzeCalled : Bool
deriving DecidableEq, Repr

/-- `analyze_interview` from `src/backend/main_assembly_ai.py`
(lines 140-152), the remote AssemblyAI variant: content-type check, then
the 25 MB size check, then `transcribe_audio` (abstracted by
`transcribe`), then `analyze_transcript_with_groq`. -/
def analyze_interview_assembly (transcribe : List Nat → Except HTTPException String)
    (chat : String → Except String RawFields) (file : UploadFile) :
    Except HTTPException AnalysisRecord × AssemblyTrace :=
  if ¬ pyStartswith file.content_type "audio/" then
    (.error ⟨400, "Invalid file type. Please upload an audio file."⟩, ⟨false, false⟩)
  else if 25 * 1024 * 1024 < file.content.length then
    (.error ⟨400, "File too large. Max size is 25 MB."⟩, ⟨false, false⟩)
  else
    match transcribe file.content with
    | .error e => (.error e, ⟨true, false⟩)
    | .ok transcript =>
      match analyze_transcript_with_groq chat transcript with
      | .error e => (.error e, ⟨true, true⟩)
      | .ok a => (.ok a, ⟨true, true⟩)

/-- Response body of `POST /transcribe/` in
`src/backend/main_assembly_ai.py` (line 161). -/
structure TranscriptResponse where
  transcript : String
deriving DecidableEq, Repr

/-- `transcribe_endpoint` from `src/backend/main_assembly_ai.py`
(lines 154-161): content-type check, then straight to the transcription
pipeline — the endpoint performs no size check. -/
def transcribe_endpoint (transcribe : List Nat → Except HTTPException String)
    (file : UploadFile) : Except HTTPException TranscriptResponse :=
  if ¬ pyStartswith file.content_type "audio/" then
    .error ⟨400, "Invalid file type. Please upload an audio file."⟩
  else
    match transcribe file.content with
    | .error e => .error e
    | .ok t => .ok ⟨t⟩

/-- The `read_chunks` generator inside `upload_to_assemblyai`
(`src/backend/main_assembly_ai.py` lines 55-57):
`data[i:i+size]` for `i in range(0, len(data), size)`.  The `size = 0`
guard is only there to make the recursion well founded; the source
always calls it with `size = 5_242_880`. -/
def read_chunks (data : List Nat) (size : Nat) : List (List Nat) :=
  if h : size = 0 ∨ data = [] then []
  else data.take size :: read_chunks (data.drop size) size
termination_by data.length
decreasing_by
  have hs : size ≠ 0 := fun h0 => h (Or.inl h0)
  have hd : data ≠ [] := fun h0 => h (Or.inr h0)
  have hp : 0 < data.length := List.length_pos.mpr hd
  simp only [List.length_drop]
  omega

/-- Pointwise predicate over a chunk list, written recursively so that
statements using it carry no hypothesis binders. -/
def AllChunks (p : List Nat → Prop) : List (List Nat) → Prop
  | [] => True
  | c :: cs => p c ∧ AllChunks p cs

/-- Response to posting one chunk to the AssemblyAI upload endpoint:
the HTTP status code and the `upload_url` field of the JSON body (absent
when the body has no such key). -/
structure PostResp where
  status_code : Nat
  upload_url : Option String
deriving DecidableEq, Repr

/-- Possible results of the upload helper: the upload URL, the 500
`UploadFailed` HTTPException, or an uncaught Python exception. -/
inductive UploadOutcome where
  | ok (url : String)
  | upload_failed
  | crash (msg : String)
deriving DecidableEq, Repr

/-- Chunk loop of `upload_to_assemblyai`
(`src/backend/main_assembly_ai.py` lines 59-65).  `response` starts as
Python `None`; posting a chunk replaces it; a non-200 status aborts with
the `UploadFailed` HTTPException; after the loop
`response.json()['upload_url']` dereferences the last response — an
`AttributeError` when no chunk was ever posted, a `KeyError` when the
body lacks the key. -/
def upload_loop (post : List Nat → PostResp) :
    List (List Nat) → Option PostResp → UploadOutcome
  | [], none => .crash "AttributeError: NoneType object has no attribute json"
  | [], some r =>
    match r.upload_url with
    | some u => .ok u
    | none => .crash "KeyError: upload_url"
  | c :: rest, _ =>
    let r := post c
    if r.status_code ≠ 200 then .upload_failed else upload_loop post rest (some r)

/-- `upload_to_assemblyai` from `src/backend/main_assembly_ai.py`
(lines 50-65): split the audio into 5 MiB chunks and post them
sequentially.  `post` abstracts `requests.post` on one chunk. -/
def upload_to_assemblyai (post : List Nat → PostResp) (audio : List Nat) : UploadOutcome :=
  upload_loop post (read_chunks audio 5242880) none

/-- One JSON body returned by a GET on the transcript endpoint during
polling: the `status`, `text` and `error` fields, each possibly
absent. -/
structure PollResponse where
  status : Option String
  text : Option String
  error : Option String
deriving DecidableEq, Repr

/-- Possible results of the poll loop: the transcript text, the 500
`TranscriptionError` HTTPException carrying the provider's message, the
500 timeout HTTPException, or an uncaught `KeyError`. -/
inductive PollOutcome where
  | completed (t : String)
  | transcription_error (msg : String)
  | timed_out
  | crash (msg : String)
deriving DecidableEq, Repr

/-- Poll loop of `poll_transcription`
(`src/backend/main_assembly_ai.py` lines 79-92), with the wall clock
made explicit: the requests are instantaneous and `time.sleep(3)`
advances time by 3 s, so the k-th poll happens at elapsed time `3 * k`
and the loop guard `time.time() - start_time < timeout` becomes
`3 * k < timeout`.  `resp k` is the JSON body of the k-th poll.  On
`status == "completed"` the code returns `result["text"]`; on
`status == "error"` it raises carrying `result["error"]`; otherwise it
sleeps and polls again; when the guard fails it raises the timeout
error. -/
def poll_transcription_aux (resp : Nat → PollResponse) (timeout k : Nat) : PollOutcome :=
  if h : 3 * k < timeout then
    if (resp k).status = some "completed" then
      match (resp k).text with
      | some t => .completed t
      | none => .crash "KeyError: text"
    else if (resp k).status = some "error" then
      match (resp k).error with
      | some e => .transcription_error e
      | none => .crash "KeyError: error"
    else poll_transcription_aux resp timeout (k + 1)
  else .timed_out
termination_by timeout - 3 * k
decreasing_by omega

/-- `poll_transcription` from `src/backend/main_assembly_ai.py`
(lines 75-92) at its default `timeout = 300`, starting at elapsed time
zero. -/
def poll_transcription (resp : Nat → PollResponse) : PollOutcome :=
  poll_transcription_aux resp 300 0

/-- Status responses the poll loop keeps waiting on: neither
`"completed"` nor `"error"` (an absent status included). -/
def Nonterminal (r : PollResponse) : Prop :=
  r.status ≠ some "completed" ∧ r.status ≠ some "error"

/-- Stub local transcriber of the spec's end-to-end test. -/
def stubTranscribe : List Nat → Except String String :=
  fun _ => .ok "I led a team of five engineers."

/-- Stub analysis provider of the spec's end-to-end test. -/
def stubAnalyze : String → Except String RawFields :=
  fun _ => .ok ⟨some (.list ["leadership"]), some (.str "none noted"),
    some (.list ["practice concise answers"])⟩

/-- Small audio upload with an audio content type. -/
def stubAudio : UploadFile := ⟨"audio/wav", [0, 1, 2]⟩

/-- Local transcriber returning a whitespace-only transcript. -/
def wsTranscribe : List Nat → Except String String := fun _ => .ok "   "

/-- Remote transcription pipeline returning a whitespace-only
transcript. -/
def wsTranscribeAssembly : List Nat → Except HTTPException String := fun _ => .ok "   "

/-- Remote transcription pipeline that always succeeds. -/
def okTranscribe : List Nat → Except HTTPException String := fun _ => .ok "stub transcript"

/-- Audio upload one byte over the 25 MB limit. -/
def bigFile : UploadFile := ⟨"audio/wav", List.replicate 26214401 0⟩

/-- Upload server that accepts every chunk and always returns an upload
URL. -/
def okServer : List Nat → PostResp := fun _ => ⟨200, some "https://cdn.assemblyai.com/upload/stub"⟩

/-- Status sequence that never leaves `"queued"`. -/
def allQueued : Nat → PollResponse := fun _ => ⟨some "queued", none, none⟩

/-- Status sequence `queued, processing, completed`. -/
def respQPC : Nat → PollResponse := fun k =>
  if k = 0 then ⟨some "queued", none, none⟩
  else if k = 1 then ⟨some "processing", none, none⟩
  else ⟨some "completed", some "transcript text", none⟩

/-- Cleanup removes the temporary file whatever state the trace is in. -/
theorem finallyCleanup_tempFile (t : RunTrace) :
    (finallyCleanup t).tempFileOnDisk = false := by
  unfold finallyCleanup
  by_cases h : t.tempFileOnDisk <;> simp [h]

/-- Cleanup does not change whether analysis was invoked. -/
theorem finallyCleanup_analyze (t : RunTrace) :
    (finallyCleanup t).analyzeCalled = t.analyzeCalled := by
  unfold finallyCleanup
  by_cases h : t.tempFileOnDisk <;> simp [h]

/-- C3: for every raw three-field mapping (fields may be strings, lists
or absent), both variants' normalization produces the three-field
all-string record `AnalysisRecord` — exactly the three keys, each a
string, by construction — and a key absent from the raw response
normalizes to the empty string. -/
theorem normalized_record_shape (raw : RawFields) :
    (raw.strengths = none →
      (mainNormalize raw).strengths = "" ∧ (groqNormalize raw).strengths = "") ∧
    (raw.weaknesses = none →
      (mainNormalize raw).weaknesses = "" ∧ (groqNormalize raw).weaknesses = "") ∧
    (raw.recommendations = none →
      (mainNormalize raw).recommendations = "" ∧ (groqNormalize raw).recommendations = "") := by
  refine ⟨fun h => ?_, fun h => ?_, fun h => ?_⟩ <;>
    simp [mainNormalize, groqNormalize, h, list_to_str, normalize_field] <;> rfl

/-- Witness for the C3 theorem at the raw response with all three keys
absent. -/
theorem normalized_record_shape_witness :
    ((⟨none, none, none⟩ : RawFields).strengths = none) ∧
    ((⟨none, none, none⟩ : RawFields).weaknesses = none) ∧
    ((⟨none, none, none⟩ : RawFields).recommendations = none) ∧
    ((mainNormalize ⟨none, none, none⟩).strengths = "" ∧
      (groqNormalize ⟨none, none, none⟩).strengths = "") ∧
    ((mainNormalize ⟨none, none, none⟩).weaknesses = "" ∧
      (groqNormalize ⟨none, none, none⟩).weaknesses = "") ∧
    ((mainNormalize ⟨none, none, none⟩).recommendations = "" ∧
      (groqNormalize ⟨none, none, none⟩).recommendations = "") :=
  ⟨rfl, rfl, rfl,
    (normalized_record_shape ⟨none, none, none⟩).1 rfl,
    (normalized_record_shape ⟨none, none, none⟩).2.1 rfl,
    (normalized_record_shape ⟨none, none, none⟩).2.2 rfl⟩

/-- C4 counterexample: on the claim's own round-trip input the remote
variant's normalization joins list elements with `"\n- "` (and sends the
empty list to `"\n- "`, not `""`), and `main.py`'s `list_to_str` does
not pass the two-character string `"ab"` through unchanged. -/
theorem normalize_roundtrip_refuted :
    groqNormalize ⟨some (.list ["a", "b"]), some (.str "x"), some (.list [])⟩ ≠
      ⟨"a\nb", "x", ""⟩ ∧
    list_to_str (.str "ab") ≠ "ab" := by
  exact ⟨by decide, by decide⟩

/-- C4 (amended): `main.py`'s `list_to_str` joins the items of its
argument with newline separators preserving order — the elements of a
list, the characters of a string (so only strings of length at most one
pass through unchanged) — and an absent key becomes the empty string;
the claim's round-trip holds for `main.py`'s normalization.  The remote
variant's `normalize` instead passes strings through unchanged and maps
a list to `"\n- "` followed by the elements joined by `"\n- "`. -/
theorem normalize_field_mapping_amended :
    (∀ xs, list_to_str (.list xs) = String.intercalate "\n" xs) ∧
    mainNormalize ⟨some (.list ["a", "b"]), some (.str "x"), some (.list [])⟩ =
      ⟨"a\nb", "x", ""⟩ ∧
    (∀ w r, (mainNormalize ⟨none, w, r⟩).strengths = "") ∧
    (∀ s r, (mainNormalize ⟨s, none, r⟩).weaknesses = "") ∧
    (∀ s w, (mainNormalize ⟨s, w, none⟩).recommendations = "") ∧
    list_to_str (.str "ab") = "a\nb" ∧
    (∀ s, normalize_field (.str s) = s) ∧
    normalize_field (.list ["a", "b"]) = "\n- a\n- b" ∧
    normalize_field (.list []) = "\n- " :=
  ⟨fun xs => rfl, by decide, fun w r => rfl, fun s r => rfl, fun s w => rfl,
    by decide, fun s => rfl, by decide, by decide⟩

/-- C2 counterexample: with the claim's exact stubs the local pipeline
does not return the claimed record — `list_to_str` splinters the
string-valued weaknesses field `"none noted"` into newline-joined
characters. -/
theorem e2e_fixed_input_refuted :
    (analyze_interview_local stubTranscribe stubAnalyze stubAudio).1 ≠
      .ok ⟨"I led a team of five engineers.", "leadership", "none noted",
        "practice concise answers"⟩ := by
  intro hc
  have h : (analyze_interview_local stubTranscribe stubAnalyze stubAudio).1 =
      .ok ⟨"I led a team of five engineers.", "leadership",
        "n\no\nn\ne\n \nn\no\nt\ne\nd", "practice concise answers"⟩ := rfl
  rw [h] at hc
  exact absurd (Except.ok.inj hc) (by decide)

/-- C2 (amended): with the claim's stubs the local pipeline returns the
transcript, strengths and recommendations exactly as claimed, but the
string-valued weaknesses field comes back with its characters joined by
newlines. -/
theorem e2e_fixed_input_amended :
    (analyze_interview_local stubTranscribe stubAnalyze stubAudio).1 =
      .ok ⟨"I led a team of five engineers.", "leadership",
        "n\no\nn\ne\n \nn\no\nt\ne\nd", "practice concise answers"⟩ ∧
    (analyze_interview_local stubTranscribe stubAnalyze stubAudio).2 =
      ⟨false, true⟩ :=
  ⟨rfl, rfl⟩

/-- C1 counterexample: a transcript consisting only of whitespace is not
rejected — the local pipeline succeeds and the analysis provider is
invoked on that request. -/
theorem whitespace_transcript_refuted :
    "   ".data.all Char.isWhitespace = true ∧
    (analyze_interview_local wsTranscribe stubAnalyze stubAudio).2.analyzeCalled = true ∧
    (analyze_interview_local wsTranscribe stubAnalyze stubAudio).1 =
      .ok ⟨"   ", "leadership", "n\no\nn\ne\n \nn\no\nt\ne\nd",
        "practice concise answers"⟩ :=
  ⟨by decide, rfl, rfl⟩

/-- C1 (amended): no empty-transcript check exists in either variant —
whenever the content-type check passes (and, remotely, the size check)
and transcription succeeds, the analysis provider is invoked, whatever
the transcript, a whitespace-only one included. -/
theorem analysis_always_invoked
    (transcribe : List Nat → Except String String)
    (analyze : String → Except String RawFields)
    (transcribeA : List Nat → Except HTTPException String)
    (chat : String → Except String RawFields)
    (file : UploadFile) (t u : String)
    (haudio : pyStartswith file.content_type "audio/" = true)
    (ht : transcribe file.content = .ok t)
    (hu : transcribeA file.content = .ok u)
    (hsize : file.content.length ≤ 25 * 1024 * 1024) :
    (analyze_interview_local transcribe analyze file).2.analyzeCalled = true ∧
    (analyze_interview_assembly transcribeA chat file).2.analyzeCalled = true := by
  constructor
  · unfold analyze_interview_local analyze_interview_try
    rw [ht]
    simp only [haudio, not_true_eq_false, if_false]
    cases h : analyze t <;> simp [h, finallyCleanup_analyze]
  · unfold analyze_interview_assembly analyze_transcript_with_groq
    rw [hu]
    have hsz : ¬ 25 * 1024 * 1024 < file.content.length := by omega
    simp only [haudio, not_true_eq_false, if_false, hsz]
    cases h : chat u <;> simp [h]

/-- Witness for the C1 amended theorem: a whitespace-only transcript on
a small audio upload. -/
theorem analysis_always_invoked_witness :
    pyStartswith stubAudio.content_type "audio/" = true ∧
    wsTranscribe stubAudio.content = .ok "   " ∧
    wsTranscribeAssembly stubAudio.content = .ok "   " ∧
    stubAudio.content.length ≤ 25 * 1024 * 1024 ∧
    ((analyze_interview_local wsTranscribe stubAnalyze stubAudio).2.analyzeCalled = true ∧
      (analyze_interview_assembly wsTranscribeAssembly stubAnalyze stubAudio).2.analyzeCalled = true) :=
  ⟨by decide, rfl, rfl, by decide,
    analysis_always_invoked wsTranscribe stubAnalyze wsTranscribeAssembly stubAnalyze
      stubAudio "   " "   " (by decide) rfl rfl (by decide)⟩

/-- Chunking the empty byte string yields no chunks
(`range(0, 0, size)` is empty). -/
theorem read_chunks_nil (size : Nat) : read_chunks [] size = [] := by
  unfold read_chunks
  simp

/-- Unfolding of the chunk generator on a nonempty byte string. -/
theorem read_chunks_cons (data : List Nat) (size : Nat) (hd : data ≠ []) (hs : size ≠ 0) :
    read_chunks data size = data.take size :: read_chunks (data.drop size) size := by
  conv_lhs => rw [read_chunks]
  rw [dif_neg (by tauto)]

/-- Chunk shape invariants of the upload splitter, for any nonzero chunk
size: the chunks concatenate back to the input in order, every chunk but
the last has length exactly `size`, and every chunk has length at most
`size`. -/
theorem read_chunks_spec (size : Nat) (hs : size ≠ 0) :
    ∀ data : List Nat,
      (read_chunks data size).flatten = data ∧
      AllChunks (fun c => c.length = size) (read_chunks data size).dropLast ∧
      AllChunks (fun c => c.length ≤ size) (read_chunks data size) := by
  have H : ∀ (n : Nat) (data : List Nat), data.length ≤ n →
      (read_chunks data size).flatten = data ∧
      AllChunks (fun c => c.length = size) (read_chunks data size).dropLast ∧
      AllChunks (fun c => c.length ≤ size) (read_chunks data size) := by
    intro n
    induction n with
    | zero =>
      intro data hlen
      have hd : data = [] := List.eq_nil_of_length_eq_zero (Nat.le_zero.mp hlen)
      subst hd
      rw [read_chunks_nil]
      exact ⟨rfl, trivial, trivial⟩
    | succ n ih =>
      intro data hlen
      by_cases hd : data = []
      · subst hd
        rw [read_chunks_nil]
        exact ⟨rfl, trivial, trivial⟩
      · have hpos : 0 < data.length := List.length_pos.mpr hd
        have hdroplen : (data.drop size).length ≤ n := by
          rw [List.length_drop]
          omega
        obtain ⟨ihj, ihd, ihall⟩ := ih (data.drop size) hdroplen
        rw [read_chunks_cons data size hd hs]
        refine ⟨?_, ?_, ?_⟩
        · rw [List.flatten_cons, ihj]
          exact List.take_append_drop size data
        · by_cases hd2 : data.drop size = []
          · rw [hd2, read_chunks_nil]
            exact trivial
          · have hlt : size < data.length := by
              rcases Nat.lt_or_ge size data.length with h | h
              · exact h
              · exact absurd (List.drop_eq_nil_of_le h) hd2
            rw [read_chunks_cons (data.drop size) size hd2 hs]
            refine ⟨?_, ?_⟩
            · simp only [List.length_take]
              omega
            · rw [← read_chunks_cons (data.drop size) size hd2 hs]
              exact ihd
        · refine ⟨?_, ihall⟩
          simp only [List.length_take]
          omega
  intro data
  exact H data.length data (Nat.le_refl _)

/-- C7: the upload step splits any byte string into consecutive slices
whose in-order concatenation is the original input; every chunk has
length exactly 5 MiB (5242880 bytes) except possibly the last, and no
chunk exceeds 5 MiB.  (`upload_loop` sends this list strictly in
order.) -/
theorem upload_chunking_faithful (data : List Nat) :
    (read_chunks data 5242880).flatten = data ∧
    AllChunks (fun c => c.length = 5242880) (read_chunks data 5242880).dropLast ∧
    AllChunks (fun c => c.length ≤ 5242880) (read_chunks data 5242880) :=
  read_chunks_spec 5242880 (by omega) data

/-- C6 counterexample: on empty audio bytes the upload helper performs
zero posts and then crashes dereferencing the never-assigned `response`
(`None`), even against a server that would accept everything — the
failure is not the `UploadFailed` error and does not come from the
remote service. -/
theorem empty_upload_refuted :
    upload_to_assemblyai okServer [] =
      .crash "AttributeError: NoneType object has no attribute json" ∧
    upload_to_assemblyai okServer [] ≠ .upload_failed := by
  have h : upload_to_assemblyai okServer [] =
      .crash "AttributeError: NoneType object has no attribute json" := by
    unfold upload_to_assemblyai
    rw [read_chunks_nil]
    rfl
  refine ⟨h, ?_⟩
  rw [h]
  decide

/-- C6 (amended): empty `audio_bytes` still goes through upload and
produces the well-defined zero-chunk sequence, but the loop then posts
nothing at all, and the function crashes with an `AttributeError` on the
uninitialized response — independently of the remote service and never
as `UploadFailed`. -/
theorem empty_upload_crashes (post : List Nat → PostResp) :
    read_chunks ([] : List Nat) 5242880 = [] ∧
    upload_to_assemblyai post [] =
      .crash "AttributeError: NoneType object has no attribute json" := by
  refine ⟨read_chunks_nil 5242880, ?_⟩
  unfold upload_to_assemblyai
  rw [read_chunks_nil]
  rfl

/-- C8 counterexample: an audio upload one byte over 25 MiB sent to the
remote variant's `/transcribe/` endpoint is not rejected — the endpoint
has no size check and proceeds straight into the transcription
pipeline. -/
theorem oversized_transcribe_refuted :
    25 * 1024 * 1024 < bigFile.content.length ∧
    transcribe_endpoint okTranscribe bigFile = .ok ⟨"stub transcript"⟩ := by
  constructor
  · show 25 * 1024 * 1024 < (List.replicate 26214401 (0 : Nat)).length
    rw [List.length_replicate]
    omega
  · rfl

/-- C8 (amended): only `/analyze-interview/` enforces the 25 MiB
ceiling: there an audio payload longer than `25 * 1024 * 1024` bytes is
rejected with the 400 "File too large" error before any transcription,
upload or polling work begins (the trace stays all-false and the result
does not depend on the providers); `/transcribe/` performs no size check
and hands arbitrarily large audio to the transcription pipeline. -/
theorem size_limit_only_on_analyze
    (transcribe transcribe2 : List Nat → Except HTTPException String)
    (chat : String → Except String RawFields)
    (file file2 : UploadFile) (t : String)
    (haudio : pyStartswith file.content_type "audio/" = true)
    (hbig : 25 * 1024 * 1024 < file.content.length)
    (haudio2 : pyStartswith file2.content_type "audio/" = true)
    (hbig2 : 25 * 1024 * 1024 < file2.content.length)
    (htr : transcribe2 file2.content = .ok t) :
    analyze_interview_assembly transcribe chat file =
      (.error ⟨400, "File too large. Max size is 25 MB."⟩, ⟨false, false⟩) ∧
    transcribe_endpoint transcribe2 file2 = .ok ⟨t⟩ := by
  constructor
  · unfold analyze_interview_assembly
    simp [haudio, hbig]
  · unfold transcribe_endpoint
    rw [htr]
    simp [haudio2]

/-- Witness for the C8 amended theorem at a payload one byte over the
limit. -/
theorem size_limit_only_on_analyze_witness :
    pyStartswith bigFile.content_type "audio/" = true ∧
    25 * 1024 * 1024 < bigFile.content.length ∧
    okTranscribe bigFile.content = .ok "stub transcript" ∧
    (analyze_interview_assembly okTranscribe stubAnalyze bigFile =
        (.error ⟨400, "File too large. Max size is 25 MB."⟩, ⟨false, false⟩) ∧
      transcribe_endpoint okTranscribe bigFile = .ok ⟨"stub transcript"⟩) := by
  have hbig : 25 * 1024 * 1024 < bigFile.content.length := by
    show 25 * 1024 * 1024 < (List.replicate 26214401 (0 : Nat)).length
    rw [List.length_replicate]
    omega
  exact ⟨by decide, hbig, rfl,
    size_limit_only_on_analyze okTranscribe okTranscribe stubAnalyze bigFile bigFile
      "stub transcript" (by decide) hbig (by decide) hbig rfl⟩

/-- C9: the staged temporary audio file is gone on every exit path of
the local `analyze_interview` — success, transcription exception and
analysis failure alike (and trivially on the pre-`try` content-type
rejection, where it was never created): whatever the oracles do, the
final trace never has the file on disk. -/
theorem temp_file_always_cleaned
    (transcribe : List Nat → Except String String)
    (analyze : String → Except String RawFields) (file : UploadFile) :
    (analyze_interview_local transcribe analyze file).2.tempFileOnDisk = false := by
  unfold analyze_interview_local
  by_cases haudio : pyStartswith file.content_type "audio/"
  · simp only [haudio, not_true_eq_false, if_false]
    rcases h : analyze_interview_try transcribe analyze file with ⟨r, tr⟩
    cases r <;> simp [finallyCleanup_tempFile]
  · simp [haudio]

/-- Past the deadline the loop exits and raises the timeout error. -/
theorem poll_aux_done (resp : Nat → PollResponse) (timeout k : Nat)
    (ht : ¬ 3 * k < timeout) :
    poll_transcription_aux resp timeout k = .timed_out := by
  rw [poll_transcription_aux]
  rw [dif_neg ht]

/-- On a `completed` response within the deadline the loop returns the
text payload. -/
theorem poll_aux_completed (resp : Nat → PollResponse) (timeout k : Nat)
    (ht : 3 * k < timeout) (h1 : (resp k).status = some "completed")
    (t : String) (htx : (resp k).text = some t) :
    poll_transcription_aux resp timeout k = .completed t := by
  conv_lhs => rw [poll_transcription_aux]
  rw [dif_pos ht, if_pos h1, htx]

/-- On an `error` response within the deadline the loop raises the
transcription error carrying the provider's message. -/
theorem poll_aux_error (resp : Nat → PollResponse) (timeout k : Nat)
    (ht : 3 * k < timeout) (h1 : (resp k).status ≠ some "completed")
    (h2 : (resp k).status = some "error")
    (e : String) (hex : (resp k).error = some e) :
    poll_transcription_aux resp timeout k = .transcription_error e := by
  conv_lhs => rw [poll_transcription_aux]
  rw [dif_pos ht, if_neg h1, if_pos h2, hex]

/-- On a non-terminal response within the deadline the loop sleeps 3 s
and polls again: it raises nothing and returns nothing for that
response. -/
theorem poll_aux_step (resp : Nat → PollResponse) (timeout k : Nat)
    (ht : 3 * k < timeout)
    (h1 : (resp k).status ≠ some "completed") (h2 : (resp k).status ≠ some "error") :
    poll_transcription_aux resp timeout k = poll_transcription_aux resp timeout (k + 1) := by
  conv_lhs => rw [poll_transcription_aux]
  rw [dif_pos ht, if_neg h1, if_neg h2]

/-- Full characterization of the poll loop from poll index `k` on, for
well-formed provider responses (a `completed` body carries `text`, an
`error` body carries `error`): the loop returns the text of the first
terminal response if it is `completed`, raises with the provider message
if it is `error`, and times out when no response before the deadline is
terminal. -/
theorem poll_aux_spec (resp : Nat → PollResponse) (timeout : Nat)
    (hc : ∀ m, (resp m).status = some "completed" → (resp m).text.isSome = true)
    (he : ∀ m, (resp m).status = some "error" → (resp m).error.isSome = true) :
    ∀ (n k : Nat), timeout - 3 * k ≤ n →
      (∃ m t, k ≤ m ∧ 3 * m < timeout ∧
        (∀ j, k ≤ j → j < m → Nonterminal (resp j)) ∧
        (resp m).status = some "completed" ∧ (resp m).text = some t ∧
        poll_transcription_aux resp timeout k = .completed t) ∨
      (∃ m e, k ≤ m ∧ 3 * m < timeout ∧
        (∀ j, k ≤ j → j < m → Nonterminal (resp j)) ∧
        (resp m).status = some "error" ∧ (resp m).error = some e ∧
        poll_transcription_aux resp timeout k = .transcription_error e) ∨
      ((∀ j, k ≤ j → 3 * j < timeout → Nonterminal (resp j)) ∧
        poll_transcription_aux resp timeout k = .timed_out) := by
  intro n
  induction n with
  | zero =>
    intro k hk
    have hto : ¬ 3 * k < timeout := by omega
    exact Or.inr (Or.inr ⟨fun j hj hjt => absurd hjt (by omega),
      poll_aux_done resp timeout k hto⟩)
  | succ n ih =>
    intro k hk
    by_cases hto : 3 * k < timeout
    · by_cases hcs : (resp k).status = some "completed"
      · obtain ⟨t, htx⟩ := Option.isSome_iff_exists.mp (hc k hcs)
        exact Or.inl ⟨k, t, Nat.le_refl k, hto, fun j h1 h2 => absurd h1 (by omega),
          hcs, htx, poll_aux_completed resp timeout k hto hcs t htx⟩
      · by_cases hes : (resp k).status = some "error"
        · obtain ⟨e, hex⟩ := Option.isSome_iff_exists.mp (he k hes)
          exact Or.inr (Or.inl ⟨k, e, Nat.le_refl k, hto,
            fun j h1 h2 => absurd h1 (by omega),
            hes, hex, poll_aux_error resp timeout k hto hcs hes e hex⟩)
        · have hstep := poll_aux_step resp timeout k hto hcs hes
          rcases ih (k + 1) (by omega) with ⟨m, t, hkm, hmt, hint, hst, htx, heq⟩ |
            ⟨m, e, hkm, hmt, hint, hst, hex, heq⟩ | ⟨hall, heq⟩
          · refine Or.inl ⟨m, t, by omega, hmt, ?_, hst, htx, hstep.trans heq⟩
            intro j h1 h2
            rcases Nat.eq_or_lt_of_le h1 with rfl | h3
            · exact ⟨hcs, hes⟩
            · exact hint j (by omega) h2
          · refine Or.inr (Or.inl ⟨m, e, by omega, hmt, ?_, hst, hex, hstep.trans heq⟩)
            intro j h1 h2
            rcases Nat.eq_or_lt_of_le h1 with rfl | h3
            · exact ⟨hcs, hes⟩
            · exact hint j (by omega) h2
          · refine Or.inr (Or.inr ⟨?_, hstep.trans heq⟩)
            intro j h1 h2
            rcases Nat.eq_or_lt_of_le h1 with rfl | h3
            · exact ⟨hcs, hes⟩
            · exact hall j (by omega) h2
    · exact Or.inr (Or.inr ⟨fun j hj hjt => absurd hjt (by omega),
        poll_aux_done resp timeout k hto⟩)

/-- C5: for every sequence of well-formed polled status responses
(`completed` bodies carry `text`, `error` bodies carry `error`), the
poll loop — which queries at the fixed 3-second interval, i.e. poll `k`
happens at elapsed time `3 * k` — terminates in exactly one of three
ways: a first-terminal `completed` response makes it return that
response's text payload; a first-terminal `error` response makes it
abort with the transcription error carrying the provider's message; and
if no response before the 300-second ceiling is terminal it aborts with
the timeout error. -/
theorem poll_trichotomy (resp : Nat → PollResponse)
    (hc : ∀ m, (resp m).status = some "completed" → (resp m).text.isSome = true)
    (he : ∀ m, (resp m).status = some "error" → (resp m).error.isSome = true) :
    (∃ m t, 3 * m < 300 ∧ (∀ j, j < m → Nonterminal (resp j)) ∧
      (resp m).status = some "completed" ∧ (resp m).text = some t ∧
      poll_transcription resp = .completed t) ∨
    (∃ m e, 3 * m < 300 ∧ (∀ j, j < m → Nonterminal (resp j)) ∧
      (resp m).status = some "error" ∧ (resp m).error = some e ∧
      poll_transcription resp = .transcription_error e) ∨
    ((∀ j, 3 * j < 300 → Nonterminal (resp j)) ∧
      poll_transcription resp = .timed_out) := by
  have h := poll_aux_spec resp 300 hc he 300 0 (by omega)
  unfold poll_transcription
  rcases h with ⟨m, t, _, hmt, hint, hst, htx, heq⟩ |
    ⟨m, e, _, hmt, hint, hst, hex, heq⟩ | ⟨hall, heq⟩
  · exact Or.inl ⟨m, t, hmt, fun j hj => hint j (Nat.zero_le j) hj, hst, htx, heq⟩
  · exact Or.inr (Or.inl ⟨m, e, hmt, fun j hj => hint j (Nat.zero_le j) hj, hst, hex, heq⟩)
  · exact Or.inr (Or.inr ⟨fun j hj => hall j (Nat.zero_le j) hj, heq⟩)

/-- Witness for the C5 theorem on the status sequence
`queued, processing, completed, completed, ...`. -/
theorem poll_trichotomy_witness :
    (∀ m, (respQPC m).status = some "completed" → (respQPC m).text.isSome = true) ∧
    (∀ m, (respQPC m).status = some "error" → (respQPC m).error.isSome = true) ∧
    ((∃ m t, 3 * m < 300 ∧ (∀ j, j < m → Nonterminal (respQPC j)) ∧
      (respQPC m).status = some "completed" ∧ (respQPC m).text = some t ∧
      poll_transcription respQPC = .completed t) ∨
    (∃ m e, 3 * m < 300 ∧ (∀ j, j < m → Nonterminal (respQPC j)) ∧
      (respQPC m).status = some "error" ∧ (respQPC m).error = some e ∧
      poll_transcription respQPC = .transcription_error e) ∨
    ((∀ j, 3 * j < 300 → Nonterminal (respQPC j)) ∧
      poll_transcription respQPC = .timed_out)) := by
  have hc : ∀ m, (respQPC m).status = some "completed" → (respQPC m).text.isSome = true := by
    intro m hm
    unfold respQPC at hm ⊢
    by_cases h0 : m = 0
    · rw [if_pos h0] at hm
      exact absurd hm (by decide)
    · by_cases h1 : m = 1
      · rw [if_neg h0, if_pos h1] at hm
        exact absurd hm (by decide)
      · rw [if_neg h0, if_neg h1]
        rfl
  have he : ∀ m, (respQPC m).status = some "error" → (respQPC m).error.isSome = true := by
    intro m hm
    unfold respQPC at hm
    by_cases h0 : m = 0
    · rw [if_pos h0] at hm
      exact absurd hm (by decide)
    · by_cases h1 : m = 1
      · rw [if_neg h0, if_pos h1] at hm
        exact absurd hm (by decide)
      · rw [if_neg h0, if_neg h1] at hm
        exact absurd hm (by decide)
  exact ⟨hc, he, poll_trichotomy respQPC hc he⟩

/-- C10: on a status sequence whose every response is non-terminal
(status absent, `queued`, `processing`, anything but `completed` and
`error`), each in-deadline poll just waits and polls again — the loop
step is the identity on the outcome — and the whole loop can only end in
the timeout error once the 300-second ceiling elapses. -/
theorem poll_nonterminal_times_out (resp : Nat → PollResponse)
    (h : ∀ k, Nonterminal (resp k)) :
    poll_transcription resp = .timed_out ∧
    (∀ k, 3 * k < 300 →
      poll_transcription_aux resp 300 k = poll_transcription_aux resp 300 (k + 1)) := by
  constructor
  · have hc : ∀ m, (resp m).status = some "completed" → (resp m).text.isSome = true :=
      fun m hm => absurd hm (h m).1
    have he : ∀ m, (resp m).status = some "error" → (resp m).error.isSome = true :=
      fun m hm => absurd hm (h m).2
    unfold poll_transcription
    rcases poll_aux_spec resp 300 hc he 300 0 (by omega) with
      ⟨m, t, _, _, _, hst, _, _⟩ | ⟨m, e, _, _, _, hst, _, _⟩ | ⟨_, heq⟩
    · exact absurd hst (h m).1
    · exact absurd hst (h m).2
    · exact heq
  · intro k hk
    exact poll_aux_step resp 300 k hk (h k).1 (h k).2

/-- Witness for the C10 theorem on the status sequence that stays
`queued` forever. -/
theorem poll_nonterminal_times_out_witness :
    (∀ k, Nonterminal (allQueued k)) ∧
    poll_transcription allQueued = .timed_out := by
  have h : ∀ k, Nonterminal (allQueued k) := fun k =>
    ⟨(by decide : (some "queued" : Option String) ≠ some "completed"),
      (by decide : (some "queued" : Option String) ≠ some "error")⟩
  exact ⟨h, (poll_nonterminal_times_out allQueued h).1⟩
